import Mathlib

/-!
Verification development for the rust-craft language front-end and evaluator
(lexer, recursive-descent parser, tree-walking interpreter).

The Rust source is shallowly embedded:
* `f64` is modelled by `Fp`: a NaN marker, two infinities, and exact rational
  finite values.  IEEE special-value propagation (NaN, infinity signs,
  `inf - inf = NaN`, comparisons with NaN being false) is modelled exactly;
  rounding and overflow of finite arithmetic are not (finite arithmetic is
  exact rational arithmetic).  No claim settled here depends on rounding.
* Fallible Rust code returning `Result` becomes sum-type results; a Rust
  `panic!`/`.unwrap()` on an `Err`, which aborts the process, is modelled by a
  distinguished `crash` outcome that propagates to the top.
* The byte buffer `Vec<u8>` becomes `List Nat`; machine integers are `Nat` /
  `Int`.
-/

namespace Craft

/-- Model of Rust `f64`: NaN, the two infinities, or an exact finite value.
`fin q` stands for a finite double of mathematical value `q`; finite
arithmetic is exact (rounding not modelled). -/
inductive Fp where
  | nan : Fp
  | pinf : Fp
  | ninf : Fp
  | fin (q : ℚ) : Fp
deriving DecidableEq

/-- Rust `f64::is_nan`. -/
def Fp.is_nan : Fp → Bool
  | .nan => true
  | _ => false

/-- True exactly on the two infinities (`f64::is_infinite`). -/
def Fp.is_infinite : Fp → Bool
  | .pinf => true
  | .ninf => true
  | _ => false

/-- IEEE unary negation on the `f64` model. -/
def Fp.neg : Fp → Fp
  | .nan => .nan
  | .pinf => .ninf
  | .ninf => .pinf
  | .fin q => .fin (-q)

/-- IEEE addition on the `f64` model (finite part exact). -/
def Fp.add : Fp → Fp → Fp
  | .nan, _ => .nan
  | _, .nan => .nan
  | .pinf, .ninf => .nan
  | .pinf, _ => .pinf
  | .ninf, .pinf => .nan
  | .ninf, _ => .ninf
  | .fin _, .pinf => .pinf
  | .fin _, .ninf => .ninf
  | .fin a, .fin b => .fin (a + b)

/-- IEEE subtraction on the `f64` model; in particular `inf - inf = NaN`. -/
def Fp.sub : Fp → Fp → Fp
  | .nan, _ => .nan
  | _, .nan => .nan
  | .pinf, .pinf => .nan
  | .pinf, _ => .pinf
  | .ninf, .ninf => .nan
  | .ninf, _ => .ninf
  | .fin _, .pinf => .ninf
  | .fin _, .ninf => .pinf
  | .fin a, .fin b => .fin (a - b)

/-- IEEE multiplication on the `f64` model; `inf * 0 = NaN`. -/
def Fp.mul : Fp → Fp → Fp
  | .nan, _ => .nan
  | _, .nan => .nan
  | .pinf, .pinf => .pinf
  | .pinf, .ninf => .ninf
  | .pinf, .fin q => if q = 0 then .nan else if 0 < q then .pinf else .ninf
  | .ninf, .pinf => .ninf
  | .ninf, .ninf => .pinf
  | .ninf, .fin q => if q = 0 then .nan else if 0 < q then .ninf else .pinf
  | .fin q, .pinf => if q = 0 then .nan else if 0 < q then .pinf else .ninf
  | .fin q, .ninf => if q = 0 then .nan else if 0 < q then .ninf else .pinf
  | .fin a, .fin b => .fin (a * b)

/-- IEEE division on the `f64` model (the interpreter only divides after a
zero test, so the `fin/fin 0` arms are unreachable from the evaluator). -/
def Fp.div : Fp → Fp → Fp
  | .nan, _ => .nan
  | _, .nan => .nan
  | .pinf, .pinf => .nan
  | .pinf, .ninf => .nan
  | .ninf, .pinf => .nan
  | .ninf, .ninf => .nan
  | .pinf, .fin q => if 0 ≤ q then .pinf else .ninf
  | .ninf, .fin q => if 0 ≤ q then .ninf else .pinf
  | .fin _, .pinf => .fin 0
  | .fin _, .ninf => .fin 0
  | .fin a, .fin b =>
    if b = 0 then (if a = 0 then .nan else if 0 < a then .pinf else .ninf)
    else .fin (a / b)

/-- IEEE absolute value on the `f64` model. -/
def Fp.abs : Fp → Fp
  | .nan => .nan
  | .pinf => .pinf
  | .ninf => .pinf
  | .fin q => .fin |q|

/-- IEEE `<` (false whenever either side is NaN). -/
def Fp.lt : Fp → Fp → Bool
  | .nan, _ => false
  | _, .nan => false
  | .ninf, .ninf => false
  | .ninf, _ => true
  | .pinf, _ => false
  | .fin _, .pinf => true
  | .fin _, .ninf => false
  | .fin a, .fin b => decide (a < b)

/-- IEEE `<=` (false whenever either side is NaN). -/
def Fp.le : Fp → Fp → Bool
  | .nan, _ => false
  | _, .nan => false
  | .ninf, _ => true
  | .pinf, .pinf => true
  | .pinf, _ => false
  | .fin _, .pinf => true
  | .fin _, .ninf => false
  | .fin a, .fin b => decide (a ≤ b)

/-- IEEE `>`. -/
def Fp.gt (a b : Fp) : Bool := Fp.lt b a

/-- IEEE `>=`. -/
def Fp.ge (a b : Fp) : Bool := Fp.le b a

/-- IEEE `==` (NaN is unequal to everything; used for the `!= 0.0` test). -/
def Fp.ieee_eq : Fp → Fp → Bool
  | .nan, _ => false
  | _, .nan => false
  | .pinf, .pinf => true
  | .pinf, _ => false
  | .ninf, .ninf => true
  | .ninf, _ => false
  | .fin _, .pinf => false
  | .fin _, .ninf => false
  | .fin a, .fin b => decide (a = b)

/-- IEEE `!=`, the `*rn != 0.0` test of `visit_binary`. -/
def Fp.ieee_ne (a b : Fp) : Bool := !(Fp.ieee_eq a b)

/-- `f64::EPSILON` = 2^-52, the machine epsilon used by `Interpreter::equals`. -/
def f64_epsilon : ℚ := 1 / 2 ^ 52

/-! ## Syntax tree (src/expr.rs) -/

/-- `expr::SourceLocation`: 1-based line, column (`i64`, often the sentinel -1). -/
structure SourceLocation where
  line : Nat
  col : Int
deriving DecidableEq

/-- `expr::Symbol`: an identifier occurrence with its location. -/
structure Symbol where
  name : String
  line : Nat
  col : Int
deriving DecidableEq

/-- `expr::LogicalOp`. -/
inductive LogicalOp where
  | and : LogicalOp
  | or : LogicalOp
deriving DecidableEq

/-- `expr::UnaryOpType`. -/
inductive UnaryOpType where
  | minus : UnaryOpType
  | bang : UnaryOpType
deriving DecidableEq

/-- `expr::UnaryOp`. -/
structure UnaryOp where
  op_type : UnaryOpType
  line : Nat
  col : Int
deriving DecidableEq

/-- `expr::BinaryOpType`. -/
inductive BinaryOpType where
  | bangEqual | equalEqual | greater | greaterEqual | less | lessEqual
  | minus | plus | slash | star
deriving DecidableEq

/-- `expr::BinaryOp`. -/
structure BinaryOp where
  op_type : BinaryOpType
  line : Nat
  col : Int
deriving DecidableEq

/-- `expr::Literal` (the parser-level literal; `Number` holds an `f64`). -/
inductive Literal where
  | string (s : String)
  | number (n : Fp)
  | true
  | false
  | nil
deriving DecidableEq

/-- `expr::Expr`.  Constructor names follow the Rust variants
(`Variable` is rendered `var` because `variable` is a Lean keyword). -/
inductive Expr where
  | assign (target : Symbol) (value : Expr)
  | unary (op : UnaryOp) (operand : Expr)
  | binary (lhs : Expr) (op : BinaryOp) (rhs : Expr)
  | call (callee : Expr) (loc : SourceLocation) (args : List Expr)
  | get (object : Expr) (name : Symbol)
  | grouping (inner : Expr)
  | literal (lit : Literal)
  | logical (lhs : Expr) (op : LogicalOp) (rhs : Expr)
  | set (object : Expr) (name : Symbol) (value : Expr)
  | super (loc : SourceLocation) (name : Symbol)
  | this (loc : SourceLocation)
  | var (sym : Symbol)

/-- `expr::Stmt`. -/
inductive Stmt where
  | expr (e : Expr)
  | print (e : Expr)
  | varDecl (sym : Symbol) (initilizer : Option Expr)

/-! ## Runtime values (src/tree_interpreter.rs) -/

/-- `tree_interpreter::Value`. -/
inductive Value where
  | number (n : Fp)
  | string (s : String)
  | boolean (b : Bool)
  | nil
deriving DecidableEq

/-- `tree_interpreter::LoxType`. -/
inductive LoxType where
  | number | string | boolean | nil
deriving DecidableEq

/-- `tree_interpreter::instance_of`. -/
def instance_of : Value → LoxType
  | .nil => .nil
  | .number _ => .number
  | .string _ => .string
  | .boolean _ => .boolean

/-- Rust `{:?}` rendering of `UnaryOpType`. -/
def UnaryOpType.debug : UnaryOpType → String
  | .minus => "Minus"
  | .bang => "Bang"

/-- Rust `{:?}` rendering of `BinaryOpType`. -/
def BinaryOpType.debug : BinaryOpType → String
  | .bangEqual => "BangEqual"
  | .equalEqual => "EqualEqual"
  | .greater => "Greater"
  | .greaterEqual => "GreaterEqual"
  | .less => "Less"
  | .lessEqual => "LessEqual"
  | .minus => "Minus"
  | .plus => "Plus"
  | .slash => "Slash"
  | .star => "Star"

/-- Rust `{:?}` rendering of `LoxType`. -/
def LoxType.debug : LoxType → String
  | .number => "Number"
  | .string => "String"
  | .boolean => "Boolean"
  | .nil => "Nil"

/-! ## Runtime error messages (exact Rust `format!` strings) -/

/-- Error of `visit_unary` on a String operand. -/
def unary_string_err (op : UnaryOp) : String :=
  "Invalid use of unary operator '" ++ op.op_type.debug ++
    "' on a String type at line " ++ toString op.line ++ ", column " ++
    toString op.col ++ "."

/-- Error of `visit_unary` on a Boolean operand. -/
def unary_boolean_err (op : UnaryOp) : String :=
  "Invalid use of unary operator '" ++ op.op_type.debug ++
    "' on a Boolean type at line " ++ toString op.line ++ ", column " ++
    toString op.col ++ "."

/-- Error of `visit_unary` on a Nil operand (the source omits the quotes here). -/
def unary_nil_err (op : UnaryOp) : String :=
  "Invalid use of unary operator " ++ op.op_type.debug ++
    " on a Nil type at line " ++ toString op.line ++ ", column " ++
    toString op.col ++ "."

/-- `ZeroDivisionError` message of `visit_binary`. -/
def zero_div_msg (line : Nat) (col : Int) : String :=
  "ZeroDivisionError: division by zero at line " ++ toString line ++
    ", column " ++ toString col ++ "."

/-- Catch-all operand type error of `visit_binary`. -/
def binary_type_err (op : BinaryOp) (lt rt : LoxType) : String :=
  "Invalid operands for binary operator " ++ op.op_type.debug ++ " of types " ++
    lt.debug ++ " and " ++ rt.debug ++ " at line " ++ toString op.line ++
    ", column " ++ toString op.col ++ "."

/-- `Environment::get` message for a name that was never declared. -/
def not_declared_msg (sym : Symbol) : String :=
  "Use undefined variable '" ++ sym.name ++ "' in line " ++ toString sym.line ++
    ", column " ++ toString sym.col ++ "."

/-- `Environment::get` message for a declared-but-not-defined name (the Rust
string continuation `\` plus `\n` escape yield a single newline before
`Note:`). -/
def declared_not_defined_msg (sym : Symbol) (loc : SourceLocation) : String :=
  "Use undefined variable '" ++ sym.name ++ "' in line " ++ toString sym.line ++
    ", column " ++ toString sym.col ++ ".\nNote: " ++ sym.name ++
    " was declared at line " ++ toString loc.line ++ ", column " ++
    toString loc.col ++ " but not defined."

/-! ## Environment (src/tree_interpreter.rs) -/

/-- `tree_interpreter::LookupResult` (value stored by copy in the model). -/
inductive LookupResult where
  | ok (v : Value)
  | declaredNotDefined (loc : SourceLocation)
  | notDeclared
deriving DecidableEq

/-- `tree_interpreter::Environment`: the `HashMap<String, (Option<Value>,
SourceLocation)>` is modelled as an association list whose keys are kept
unique by `define`. -/
structure Environment where
  values : List (String × (Option Value × SourceLocation))

/-- `Environment::new`. -/
def Environment.new : Environment := ⟨[]⟩

/-- `Environment::define`: insert or overwrite the binding for `symbol.name`
(the `HashMap::insert` key-uniqueness is modelled by filtering the old key). -/
def Environment.define (env : Environment) (symbol : Symbol)
    (value : Option Value) : Environment :=
  ⟨(symbol.name, (value, ⟨symbol.line, symbol.col⟩)) ::
    env.values.filter (fun p => !(p.1 == symbol.name))⟩

/-- `Environment::lookup`. -/
def Environment.lookup (env : Environment) (symbol : Symbol) : LookupResult :=
  match env.values.find? (fun p => p.1 == symbol.name) with
  | some (_, (some val, _)) => .ok val
  | some (_, (none, source_loc)) =>
      .declaredNotDefined ⟨source_loc.line, source_loc.col⟩
  | none => .notDeclared

/-- `Environment::get`. -/
def Environment.get (env : Environment) (symbol : Symbol) :
    Except String Value :=
  match env.lookup symbol with
  | .ok val => .ok val
  | .declaredNotDefined source_loc =>
      .error (declared_not_defined_msg symbol source_loc)
  | .notDeclared => .error (not_declared_msg symbol)

/-! ## Expression evaluation (src/tree_interpreter.rs) -/

/-- Outcome of evaluating an expression: a value, a runtime error
(`Err(String)` in Rust), or a process abort (`panic!` / `.unwrap()` on `Err`). -/
inductive EvalRes where
  | ok (v : Value)
  | err (msg : String)
  | crash
deriving DecidableEq

/-- `Interpreter::visit_literal`. -/
def visit_literal : Literal → Value
  | .string s => .string s
  | .number n => .number n
  | .true => .boolean true
  | .false => .boolean false
  | .nil => .nil

/-- `Interpreter::is_truthy`. -/
def is_truthy : Value → Bool
  | .nil => false
  | .boolean b => b
  | _ => true

/-- `Interpreter::equals`: the structural equality used by `==`/`!=`.
Numbers use the NaN test and the `< f64::EPSILON` tolerance of the source. -/
def equals : Value → Value → Bool
  | .boolean b1, .boolean b2 => b1 == b2
  | .string s1, .string s2 => s1 == s2
  | .number n1, .number n2 =>
      if n1.is_nan || n2.is_nan then false
      else Fp.lt (Fp.abs (Fp.sub n1 n2)) (.fin f64_epsilon)
  | .nil, .nil => true
  | _, _ => false

/-- The `match (op.op_type, &val)` of `Interpreter::visit_unary`, applied
after the operand has been evaluated (arm order as in the source). -/
def visit_unary_cases (op : UnaryOp) (val : Value) : EvalRes :=
  match op.op_type, val with
  | .minus, .number n => .ok (.number n.neg)
  | .bang, .number n => .ok (.boolean (!is_truthy (.number n)))
  | _, .string _ => .err (unary_string_err op)
  | _, .boolean _ => .err (unary_boolean_err op)
  | _, .nil => .err (unary_nil_err op)

/-- The `match (&left, op.op_type, &right)` of `Interpreter::visit_binary`,
applied after both operands have been evaluated (arm order as in the source). -/
def visit_binary_cases (left : Value) (op : BinaryOp) (right : Value) :
    EvalRes :=
  match left, op.op_type, right with
  | .number l, .greater, .number r => .ok (.boolean (Fp.gt l r))
  | .number l, .greaterEqual, .number r => .ok (.boolean (Fp.ge l r))
  | .number l, .less, .number r => .ok (.boolean (Fp.lt l r))
  | .number l, .lessEqual, .number r => .ok (.boolean (Fp.le l r))
  | .number l, .plus, .number r => .ok (.number (Fp.add l r))
  | .number l, .minus, .number r => .ok (.number (Fp.sub l r))
  | .number l, .star, .number r => .ok (.number (Fp.mul l r))
  | .number ln, .slash, .number rn =>
      if Fp.ieee_ne rn (.fin 0) then .ok (.number (Fp.div ln rn))
      else .err (zero_div_msg op.line op.col)
  | .string ls, .plus, .string rs => .ok (.string (ls ++ rs))
  | _, .equalEqual, _ => .ok (.boolean (equals left right))
  | _, .bangEqual, _ => .ok (.boolean (!equals left right))
  | _, _, _ => .err (binary_type_err op (instance_of left) (instance_of right))

/-- `Interpreter::evaluate_expr`.  The `&mut self` receiver is threaded as the
explicit `Environment`; no arm of the Rust function reads or writes `self.env`,
which the threading makes visible.  The `Unary` arm propagates operand failures
with `?` (as `visit_unary` does); the `Binary` arm calls `.unwrap()` on both
operand results, so an operand error or crash becomes a `crash`
(a Rust panic). All remaining expression kinds fall into `Err("E")`. -/
def evaluate_expr : Environment → Expr → EvalRes × Environment
  | env, .literal lit => (.ok (visit_literal lit), env)
  | env, .unary op e =>
      match evaluate_expr env e with
      | (.ok val, env') => (visit_unary_cases op val, env')
      | (.err msg, env') => (.err msg, env')
      | (.crash, env') => (.crash, env')
  | env, .binary lhs op rhs =>
      match evaluate_expr env lhs with
      | (.ok left, env1) =>
          (match evaluate_expr env1 rhs with
           | (.ok right, env2) => (visit_binary_cases left op right, env2)
           | (.err _, env2) => (.crash, env2)
           | (.crash, env2) => (.crash, env2))
      | (.err _, env1) => (.crash, env1)
      | (.crash, env1) => (.crash, env1)
  | env, .grouping e => evaluate_expr env e
  | env, _ => (.err "E", env)

/-- Outcome of executing a statement or statement list (`Result<(), String>`
in Rust, plus the `crash` outcome for panics). -/
inductive ExecRes where
  | ok
  | err (msg : String)
  | crash
deriving DecidableEq

/-- `Interpreter::evaluate` (statement execution).  Print output is collected
as the list of printed values; the decimal rendering of `format_val` is not
modelled because no claim concerns it. -/
def evaluate (env : Environment) : Stmt → ExecRes × Environment × List Value
  | .expr e =>
      match evaluate_expr env e with
      | (.ok _, env') => (.ok, env', [])
      | (.err msg, env') => (.err msg, env', [])
      | (.crash, env') => (.crash, env', [])
  | .print e =>
      match evaluate_expr env e with
      | (.ok val, env') => (.ok, env', [val])
      | (.err msg, env') => (.err msg, env', [])
      | (.crash, env') => (.crash, env', [])
  | .varDecl sym initilizer =>
      match initilizer with
      | some e =>
          match evaluate_expr env e with
          | (.ok val, env') => (.ok, env'.define sym (some val), [])
          | (.err msg, env') => (.err msg, env', [])
          | (.crash, env') => (.crash, env', [])
      | none => (.ok, env.define sym none, [])

/-- `Interpreter::interpret`: execute the statements in order, stopping at the
first error (which becomes the result) or crash. -/
def interpret (env : Environment) : List Stmt →
    ExecRes × Environment × List Value
  | [] => (.ok, env, [])
  | stmt :: rest =>
      match evaluate env stmt with
      | (.ok, env', out) =>
          match interpret env' rest with
          | (r, env'', out') => (r, env'', out ++ out')
      | (.err msg, env', out) => (.err msg, env', out)
      | (.crash, env', out) => (.crash, env', out)

/-! ## Lexer (src/scanner.rs) -/

/-- `scanner::TokenType`.  Keyword variants carry a `kw` prefix because
several Rust variant names (`Fun`, `If`, `Class`, ...) are Lean keywords. -/
inductive TokenType where
  | leftParen | rightParen | leftBrace | rightBrace | comma | dot
  | minus | plus | semicolon | slash | star
  | bang | bangEqual | equal | equalEqual
  | greater | greaterEqual | less | lessEqual
  | identifier | string | number
  | kwAnd | kwClass | kwElse | kwFalse | kwFun | kwFor | kwIf | kwNil
  | kwOr | kwPrint | kwReturn | kwSuper | kwThis | kwTrue | kwVar | kwWhile
  | eof
deriving DecidableEq

/-- `scanner::Literal` (the token payload; the source spells the identifier
variant `Indentifier`, kept here). -/
inductive ScanLiteral where
  | indentifier (s : String)
  | number (n : Fp)
  | string (s : String)
deriving DecidableEq

/-- `scanner::Token`. -/
structure Token where
  t_type : TokenType
  lexeme : List Nat
  line : Nat
  literal : Option ScanLiteral
deriving DecidableEq

/-- Rust `char::is_alphabetic` restricted to the code points a single source
byte can denote when cast with `as char` (Latin-1): ASCII letters plus the
Latin-1 alphabetic code points, together with `_` as in `Scanner::is_alpha`. -/
def is_alpha (b : Nat) : Bool :=
  decide ((65 ≤ b ∧ b ≤ 90) ∨ (97 ≤ b ∧ b ≤ 122) ∨ b = 95 ∨
    b = 170 ∨ b = 181 ∨ b = 186 ∨ (192 ≤ b ∧ b ≤ 214) ∨
    (216 ≤ b ∧ b ≤ 246) ∨ (248 ≤ b ∧ b ≤ 255))

/-- `Scanner::is_ascii_digit` on the byte cast to `char`. -/
def is_ascii_digit (b : Nat) : Bool := decide (48 ≤ b ∧ b ≤ 57)

/-- `Scanner::is_alpha_numeric`. -/
def is_alpha_numeric (b : Nat) : Bool := is_alpha b || is_ascii_digit b

/-- UTF-8 decoding of a byte sequence, mirroring what
`String::from_utf8(...)` accepts (overlong encodings, surrogates and
out-of-range sequences rejected); `none` models its `Err` case, on which the
scanner's `.unwrap()` panics. -/
def utf8_decode_chars : List Nat → Option (List Char)
  | [] => some []
  | b1 :: rest =>
    if b1 < 128 then
      match utf8_decode_chars rest with
      | some cs => some (Char.ofNat b1 :: cs)
      | none => none
    else if 194 ≤ b1 ∧ b1 ≤ 223 then
      match rest with
      | b2 :: rest2 =>
        if 128 ≤ b2 ∧ b2 ≤ 191 then
          match utf8_decode_chars rest2 with
          | some cs => some (Char.ofNat ((b1 - 192) * 64 + (b2 - 128)) :: cs)
          | none => none
        else none
      | [] => none
    else if 224 ≤ b1 ∧ b1 ≤ 239 then
      match rest with
      | b2 :: b3 :: rest3 =>
        if (if b1 = 224 then 160 ≤ b2 ∧ b2 ≤ 191
            else if b1 = 237 then 128 ≤ b2 ∧ b2 ≤ 159
            else 128 ≤ b2 ∧ b2 ≤ 191) ∧ (128 ≤ b3 ∧ b3 ≤ 191) then
          match utf8_decode_chars rest3 with
          | some cs =>
            some (Char.ofNat ((b1 - 224) * 4096 + (b2 - 128) * 64 + (b3 - 128)) :: cs)
          | none => none
        else none
      | _ => none
    else if 240 ≤ b1 ∧ b1 ≤ 244 then
      match rest with
      | b2 :: b3 :: b4 :: rest4 =>
        if (if b1 = 240 then 144 ≤ b2 ∧ b2 ≤ 191
            else if b1 = 244 then 128 ≤ b2 ∧ b2 ≤ 143
            else 128 ≤ b2 ∧ b2 ≤ 191) ∧ (128 ≤ b3 ∧ b3 ≤ 191) ∧
            (128 ≤ b4 ∧ b4 ≤ 191) then
          match utf8_decode_chars rest4 with
          | some cs =>
            some (Char.ofNat ((b1 - 240) * 262144 + (b2 - 128) * 4096 +
              (b3 - 128) * 64 + (b4 - 128)) :: cs)
          | none => none
        else none
      | _ => none
    else none

/-- `String::from_utf8` on a byte slice. -/
def bytes_to_string (bs : List Nat) : Option String :=
  (utf8_decode_chars bs).map List.asString

/-- The Rust slice `source[a..b]`. -/
def slice (src : List Nat) (a b : Nat) : List Nat := (src.drop a).take (b - a)

/-- The keyword table built in `Scanner::default`. -/
def keywords : List (String × TokenType) :=
  [("and", .kwAnd), ("class", .kwClass), ("else", .kwElse),
   ("false", .kwFalse), ("for", .kwFor), ("fun", .kwFun), ("if", .kwIf),
   ("nil", .kwNil), ("or", .kwOr), ("print", .kwPrint),
   ("return", .kwReturn), ("super", .kwSuper), ("this", .kwThis),
   ("true", .kwTrue), ("var", .kwVar), ("while", .kwWhile)]

/-- `self.keywords.contains_key(..)` / `.get(..).unwrap()` combined. -/
def keyword_lookup (s : String) : Option TokenType :=
  (keywords.find? (fun p => p.1 == s)).map (fun p => p.2)

/-- `scanner::Scanner`, plus three instrumentation flags that record events a
Rust run would surface as panics or non-termination: `oob` (an `advance` read
at or past the end of `source`, which would panic), `panicked`
(`String::from_utf8(..).unwrap()` failed), and `hung` (loop fuel exhausted;
proved unreachable). -/
structure ScanState where
  source : List Nat
  tokens : List Token
  start : Nat
  current : Nat
  line : Nat
  col : Int
  error : Option String
  oob : Bool
  panicked : Bool
  hung : Bool

/-- `Scanner::is_at_end`. -/
def ScanState.is_at_end (st : ScanState) : Bool :=
  decide (st.current ≥ st.source.length)

/-- `Scanner::advance`: read the current byte (unguarded in the source; an
out-of-range read sets `oob`, standing for the Rust index panic) and step. -/
def ScanState.advance (st : ScanState) : Nat × ScanState :=
  (st.source.getD st.current 0,
   { st with current := st.current + 1,
             oob := st.oob || decide (st.current ≥ st.source.length) })

/-- `Scanner::peek`: NUL sentinel at or past the end. -/
def ScanState.peek (st : ScanState) : Nat :=
  if st.is_at_end then 0 else st.source.getD st.current 0

/-- `Scanner::peek_next`: NUL sentinel when `current + 1` is out of range. -/
def ScanState.peek_next (st : ScanState) : Nat :=
  if st.current + 1 ≥ st.source.length then 0
  else st.source.getD (st.current + 1) 0

/-- `Scanner::matches`. -/
def ScanState.matches (st : ScanState) (c : Nat) : Bool × ScanState :=
  if st.is_at_end then (false, st)
  else if st.source.getD st.current 0 ≠ c then (false, st)
  else (true, { st with current := st.current + 1 })

/-- `Scanner::add_token_literal`. -/
def ScanState.add_token_literal (st : ScanState) (token_type : TokenType)
    (literal : Option ScanLiteral) : ScanState :=
  { st with tokens := st.tokens ++
      [{ t_type := token_type, literal := literal, line := st.line,
         lexeme := slice st.source st.start st.current }] }

/-- `Scanner::add_token`. -/
def ScanState.add_token (st : ScanState) (token_type : TokenType) : ScanState :=
  st.add_token_literal token_type none

/-- The `while self.peek() != '\n' && !self.is_at_end()` comment loop of
`scan_token`'s `/` arm. -/
def comment_loop : Nat → ScanState → ScanState
  | 0, st =>
    if st.peek ≠ 10 ∧ ¬st.is_at_end then { st with hung := true } else st
  | fuel + 1, st =>
    if st.peek ≠ 10 ∧ ¬st.is_at_end then comment_loop fuel (st.advance).2
    else st

/-- The digit loop of `Scanner::number` (used twice). -/
def digit_loop : Nat → ScanState → ScanState
  | 0, st => if is_ascii_digit st.peek then { st with hung := true } else st
  | fuel + 1, st =>
    if is_ascii_digit st.peek then digit_loop fuel (st.advance).2 else st

/-- The identifier loop of `Scanner::identifier`. -/
def ident_loop : Nat → ScanState → ScanState
  | 0, st => if is_alpha_numeric st.peek then { st with hung := true } else st
  | fuel + 1, st =>
    if is_alpha_numeric st.peek then ident_loop fuel (st.advance).2 else st

/-- The scanning loop of `Scanner::string` (newlines tracked before each
`advance`). -/
def string_loop : Nat → ScanState → ScanState
  | 0, st =>
    if st.peek ≠ 34 ∧ ¬st.is_at_end then { st with hung := true } else st
  | fuel + 1, st =>
    if st.peek ≠ 34 ∧ ¬st.is_at_end then
      string_loop fuel
        ((if st.peek = 10 then { st with line := st.line + 1 } else st).advance).2
    else st

/-- Digits of `source[start..current]` as an exact rational; models Rust's
`parse::<f64>()` on the scanned number slice (the result of `parse` is a
rounded double; the rounding is not modelled, no claim depends on it). -/
def parse_number_bytes (bs : List Nat) : Fp :=
  let int_part := bs.takeWhile (fun b => b ≠ 46)
  let frac_part := (bs.dropWhile (fun b => b ≠ 46)).drop 1
  let digits_val : List Nat → Nat :=
    fun l => l.foldl (fun acc d => 10 * acc + (d - 48)) 0
  if bs.contains 46 then
    .fin ((digits_val int_part : ℚ) +
      (digits_val frac_part : ℚ) / (10 : ℚ) ^ frac_part.length)
  else .fin (digits_val bs : ℚ)

/-- `Scanner::number`. -/
def scan_number (st : ScanState) : ScanState :=
  let st1 := digit_loop (st.source.length + 1) st
  let st2 :=
    if st1.peek = 46 ∧ is_ascii_digit st1.peek_next then
      digit_loop (st1.source.length + 1) (st1.advance).2
    else st1
  st2.add_token_literal .number
    (some (.number (parse_number_bytes (slice st2.source st2.start st2.current))))

/-- `Scanner::identifier`.  Note: the source builds the text but attaches it
to no token — it calls `add_token`, so the emitted token's `literal` is
`None`.  A failing `String::from_utf8(..).unwrap()` sets `panicked`. -/
def scan_identifier (st : ScanState) : ScanState :=
  let st1 := ident_loop (st.source.length + 1) st
  match bytes_to_string (slice st1.source st1.start st1.current) with
  | none => { st1 with panicked := true }
  | some literal =>
    let token_type :=
      match keyword_lookup literal with
      | some k => k
      | none => TokenType.identifier
    st1.add_token token_type

/-- `Scanner::string`. -/
def scan_string (st : ScanState) : ScanState :=
  let st1 := string_loop (st.source.length + 1) st
  if st1.is_at_end then { st1 with error := some "Unterminated string." }
  else
    let st2 := (st1.advance).2
    match bytes_to_string (slice st2.source (st2.start + 1) (st2.current - 1)) with
    | none => { st2 with panicked := true }
    | some s => st2.add_token_literal .string (some (.string s))

/-- The body of `Scanner::scan_token` after the initial `advance`: the
`match c` dispatch on the consumed byte (the `format_error` diagnostic print
is a side effect outside the model; the recorded `error` field is kept). -/
def scan_token_c (c : Nat) (st : ScanState) : ScanState :=
  if c = 40 then st.add_token .leftParen
  else if c = 41 then st.add_token .rightParen
  else if c = 123 then st.add_token .leftBrace
  else if c = 125 then st.add_token .rightBrace
  else if c = 44 then st.add_token .comma
  else if c = 46 then st.add_token .dot
  else if c = 45 then st.add_token .minus
  else if c = 43 then st.add_token .plus
  else if c = 42 then st.add_token .star
  else if c = 59 then st.add_token .semicolon
  else if c = 33 then
    (st.matches 61).2.add_token
      (if (st.matches 61).1 then .bangEqual else .bang)
  else if c = 32 ∨ c = 13 ∨ c = 9 then st
  else if c = 10 then { st with line := st.line + 1, col := 0 }
  else if c = 34 then scan_string st
  else if c = 61 then
    (st.matches 61).2.add_token
      (if (st.matches 61).1 then .equalEqual else .equal)
  else if c = 60 then
    (st.matches 61).2.add_token
      (if (st.matches 61).1 then .lessEqual else .less)
  else if c = 62 then
    (st.matches 61).2.add_token
      (if (st.matches 61).1 then .greaterEqual else .greater)
  else if c = 47 then
    if (st.matches 47).1 then
      comment_loop ((st.matches 47).2.source.length + 1) (st.matches 47).2
    else (st.matches 47).2.add_token .slash
  else if is_ascii_digit c then scan_number st
  else if is_alpha c then scan_identifier st
  else
    { st with error := some ("Invalid character: " ++
        String.singleton (Char.ofNat c)) }

/-- `Scanner::scan_token`: consume one byte with `advance`, then dispatch. -/
def scan_token (st0 : ScanState) : ScanState :=
  scan_token_c (st0.advance).1 (st0.advance).2

/-- The `while !self.is_at_end()` loop of `Scanner::scan_tokens`; a panic
inside `scan_token` aborts the run. -/
def scan_loop : Nat → ScanState → ScanState
  | 0, st => if st.is_at_end then st else { st with hung := true }
  | fuel + 1, st =>
    if st.is_at_end then st
    else
      let st' := scan_token { st with start := st.current }
      if st'.panicked then st' else scan_loop fuel st'

/-- `Scanner::scan_tokens` (together with the free function `scan_tokens`,
which runs a default scanner on the input bytes): scan all tokens, then append
the end-of-input token.  A panicked (or, hypothetically, hung) run aborts
before the `Eof` push, as the Rust panic would. -/
def scan_tokens (src : List Nat) : ScanState :=
  let st := scan_loop (src.length + 1)
    { source := src, tokens := [], start := 0, current := 0, line := 1,
      col := -1, error := none, oob := false, panicked := false, hung := false }
  if st.panicked ∨ st.hung then st
  else
    { st with tokens := st.tokens ++
        [{ t_type := .eof, lexeme := [], line := st.line, literal := none }] }

/-- UTF-8 bytes of an ASCII Lean string (used only for concrete inputs). -/
def str_bytes (s : String) : List Nat := s.data.map Char.toNat

/-! ## Parser (src/parser.rs) -/

/-- `parser::Error`, plus `internalPanic` (a `panic!` in the parser, which in
Rust aborts the process) and `fuelOut` (recursion fuel exhausted; never hit in
the concrete runs proved below). -/
inductive PErr where
  | unexpectedToken (t : Token)
  | tokenMissmatch (expected : TokenType) (found : Token) (message : Option String)
  | expectedExpression (token_type : TokenType) (line : Nat) (col : Int)
  | invalidAssignment (line : Nat) (col : Int)
  | internalPanic (msg : String)
  | fuelOut
deriving DecidableEq

/-- `parser::Parser` (the cursor over the token list). -/
structure PState where
  tokens : List Token
  current : Nat
deriving DecidableEq

/-- Default token for out-of-range parser reads.  Rust indexes the token
vector directly and would panic; on `Eof`-terminated token sequences (the only
ones the claims use) the reads below stay in range. -/
def default_token : Token := ⟨.eof, [], 0, none⟩

/-- `Parser::peek`. -/
def PState.peek (p : PState) : Token := p.tokens.getD p.current default_token

/-- `Parser::previous`. -/
def PState.previous (p : PState) : Token :=
  p.tokens.getD (p.current - 1) default_token

/-- `Parser::is_at_end`. -/
def PState.is_at_end (p : PState) : Bool := p.peek.t_type == .eof

/-- `Parser::check`. -/
def PState.check (p : PState) (token_type : TokenType) : Bool :=
  if p.is_at_end then false else p.peek.t_type == token_type

/-- `Parser::advance`. -/
def PState.advance (p : PState) : Token × PState :=
  let p' := if p.is_at_end then p else { p with current := p.current + 1 }
  (p'.previous, p')

/-- `Parser::match_one`. -/
def PState.match_one (p : PState) (token_type : TokenType) : Bool × PState :=
  if p.check token_type then (true, (p.advance).2) else (false, p)

/-- `Parser::matches`. -/
def PState.matches (p : PState) : List TokenType → Bool × PState
  | [] => (false, p)
  | token_type :: rest =>
    let m := p.match_one token_type
    if m.1 then (true, m.2) else m.2.matches rest

/-- `Parser::consume`. -/
def p_consume (p : PState) (token_type : TokenType) (message : String) :
    Except PErr (Token × PState) :=
  if p.check token_type then .ok p.advance
  else .error (.tokenMissmatch token_type p.peek (some message))

/-- `Parser::token_to_unary_op`. -/
def token_to_unary_op (token : Token) : UnaryOp :=
  match token.t_type with
  | .minus => ⟨.minus, token.line, -1⟩
  | .bang => ⟨.bang, token.line, -1⟩
  | _ => ⟨.bang, token.line, -1⟩

/-- `Parser::token_to_binary_operator`. -/
def token_to_binary_operator (token : Token) : BinaryOp :=
  match token.t_type with
  | .bangEqual => ⟨.bangEqual, token.line, -1⟩
  | .equalEqual => ⟨.equalEqual, token.line, -1⟩
  | .greater => ⟨.greater, token.line, -1⟩
  | .greaterEqual => ⟨.greaterEqual, token.line, -1⟩
  | .less => ⟨.less, token.line, -1⟩
  | .plus => ⟨.plus, token.line, -1⟩
  | .minus => ⟨.minus, token.line, -1⟩
  | .lessEqual => ⟨.lessEqual, token.line, -1⟩
  | .slash => ⟨.slash, token.line, -1⟩
  | .star => ⟨.star, token.line, -1⟩
  | _ => ⟨.lessEqual, token.line, -1⟩

/-- Rust `{:?}` of `scanner::Literal` as interpolated by the unreachable
`primary` panic arm (the `f64` debug rendering is not modelled exactly; the
scanner never attaches a non-identifier literal to an identifier token, so
this arm is dead). -/
def scan_literal_debug : ScanLiteral → String
  | .indentifier s => "Indentifier(\"" ++ s ++ "\")"
  | .number _ => "Number(..)"
  | .string s => "String(\"" ++ s ++ "\")"

mutual

/-- `Parser::expression`. -/
def p_expression : Nat → PState → Except PErr (Expr × PState)
  | 0, _ => .error .fuelOut
  | fuel + 1, p => p_assignment fuel p

/-- `Parser::assignment`.  The source matches the Rust `scanner::Literal::
Identifier` pattern that the scanner spells `Indentifier`; the two are
identified here. -/
def p_assignment : Nat → PState → Except PErr (Expr × PState)
  | 0, _ => .error .fuelOut
  | fuel + 1, p =>
    match p_equality fuel p with
    | .error e => .error e
    | .ok (expr, p1) =>
      let m := p1.match_one .equal
      if m.1 then
        let equals_tok := m.2.previous
        match p_assignment fuel m.2 with
        | .error e => .error e
        | .ok (assigned, p2) =>
          match expr with
          | .var symbol => .ok (.assign symbol assigned, p2)
          | _ => .error (.invalidAssignment equals_tok.line (-1))
      else .ok (expr, m.2)

/-- `Parser::equality` (operand, then the left-folding operator loop). -/
def p_equality : Nat → PState → Except PErr (Expr × PState)
  | 0, _ => .error .fuelOut
  | fuel + 1, p =>
    match p_comparison fuel p with
    | .error e => .error e
    | .ok (expr, p1) => p_equality_loop fuel expr p1

/-- The `while self.matches(vec![BangEqual, EqualEqual])` loop of `equality`. -/
def p_equality_loop : Nat → Expr → PState → Except PErr (Expr × PState)
  | 0, _, _ => .error .fuelOut
  | fuel + 1, expr, p =>
    let m := p.matches [.bangEqual, .equalEqual]
    if m.1 then
      let op := token_to_binary_operator m.2.previous
      match p_comparison fuel m.2 with
      | .error e => .error e
      | .ok (right, p2) => p_equality_loop fuel (.binary expr op right) p2
    else .ok (expr, m.2)

/-- `Parser::comparison`. -/
def p_comparison : Nat → PState → Except PErr (Expr × PState)
  | 0, _ => .error .fuelOut
  | fuel + 1, p =>
    match p_term fuel p with
    | .error e => .error e
    | .ok (expr, p1) => p_comparison_loop fuel expr p1

/-- The operator loop of `comparison`. -/
def p_comparison_loop : Nat → Expr → PState → Except PErr (Expr × PState)
  | 0, _, _ => .error .fuelOut
  | fuel + 1, expr, p =>
    let m := p.matches [.greater, .greaterEqual, .less, .lessEqual]
    if m.1 then
      let op := token_to_binary_operator m.2.previous
      match p_term fuel m.2 with
      | .error e => .error e
      | .ok (right, p2) => p_comparison_loop fuel (.binary expr op right) p2
    else .ok (expr, m.2)

/-- `Parser::term`. -/
def p_term : Nat → PState → Except PErr (Expr × PState)
  | 0, _ => .error .fuelOut
  | fuel + 1, p =>
    match p_factor fuel p with
    | .error e => .error e
    | .ok (expr, p1) => p_term_loop fuel expr p1

/-- The `while self.matches(vec![Plus, Minus])` loop of `term`. -/
def p_term_loop : Nat → Expr → PState → Except PErr (Expr × PState)
  | 0, _, _ => .error .fuelOut
  | fuel + 1, expr, p =>
    let m := p.matches [.plus, .minus]
    if m.1 then
      let op := token_to_binary_operator m.2.previous
      match p_factor fuel m.2 with
      | .error e => .error e
      | .ok (right, p2) => p_term_loop fuel (.binary expr op right) p2
    else .ok (expr, m.2)

/-- `Parser::factor`. -/
def p_factor : Nat → PState → Except PErr (Expr × PState)
  | 0, _ => .error .fuelOut
  | fuel + 1, p =>
    match p_unary fuel p with
    | .error e => .error e
    | .ok (expr, p1) => p_factor_loop fuel expr p1

/-- The `while self.matches(vec![Slash, Star])` loop of `factor`. -/
def p_factor_loop : Nat → Expr → PState → Except PErr (Expr × PState)
  | 0, _, _ => .error .fuelOut
  | fuel + 1, expr, p =>
    let m := p.matches [.slash, .star]
    if m.1 then
      let op := token_to_binary_operator m.2.previous
      match p_unary fuel m.2 with
      | .error e => .error e
      | .ok (right, p2) => p_factor_loop fuel (.binary expr op right) p2
    else .ok (expr, m.2)

/-- `Parser::unary`. -/
def p_unary : Nat → PState → Except PErr (Expr × PState)
  | 0, _ => .error .fuelOut
  | fuel + 1, p =>
    let m := p.matches [.minus, .bang]
    if m.1 then
      let unary_op := token_to_unary_op m.2.previous
      match p_unary fuel m.2 with
      | .error e => .error e
      | .ok (right, p2) => .ok (.unary unary_op right, p2)
    else p_primary fuel m.2

/-- `Parser::primary`.  The identifier arm matches the token's literal
payload; since `Scanner::identifier` never attaches one, the `None` arm —
an explicit `panic!` labelled an internal parser error — is what an
identifier token from this scanner reaches. -/
def p_primary : Nat → PState → Except PErr (Expr × PState)
  | 0, _ => .error .fuelOut
  | fuel + 1, p =>
    let mf := p.match_one .kwFalse
    if mf.1 then .ok (.literal .false, mf.2)
    else
    let mt := mf.2.match_one .kwTrue
    if mt.1 then .ok (.literal .true, mt.2)
    else
    let mn := mt.2.match_one .kwNil
    if mn.1 then .ok (.literal .nil, mn.2)
    else
    let ml := mn.2.matches [.number, .string]
    if ml.1 then
      match (ml.2.previous).literal with
      | some (.number n) => .ok (.literal (.number n), ml.2)
      | some (.string s) => .ok (.literal (.string s), ml.2)
      | _ => .error (.internalPanic "Expected an literal")
    else
    let mi := ml.2.match_one .identifier
    if mi.1 then
      let token := mi.2.previous
      match token.literal with
      | some (.indentifier s) => .ok (.var ⟨s, token.line, -1⟩, mi.2)
      | some l =>
        .error (.internalPanic ("Internal parser error: unexpected token " ++
          scan_literal_debug l ++ " while parsing identifier"))
      | none =>
        .error (.internalPanic
          "Internal parser error: literal not found while parsing identifier.")
    else
    let mp := mi.2.match_one .leftParen
    if mp.1 then
      match p_expression fuel mp.2 with
      | .error e => .error e
      | .ok (expr, p2) =>
        match p_consume p2 .rightParen "Expect ')' after expression" with
        | .error e => .error e
        | .ok (_, p3) => .ok (.grouping expr, p3)
    else
      let current := mp.2.peek
      .error (.expectedExpression current.t_type current.line (-1))

end

/-- `Parser::var_declaration` (the `String::from_utf8(name_token.lexeme)
.unwrap()` is modelled by `internalPanic` on invalid UTF-8). -/
def p_var_declaration (fuel : Nat) (p : PState) :
    Except PErr (Stmt × PState) :=
  match p_consume p .identifier "Expect a variable name" with
  | .error e => .error e
  | .ok (name_token, p1) =>
    let m := p1.match_one .equal
    let init_res : Except PErr (Option Expr × PState) :=
      if m.1 then
        match p_expression fuel m.2 with
        | .error e => .error e
        | .ok (e, p2) => .ok (some e, p2)
      else .ok (none, m.2)
    match init_res with
    | .error e => .error e
    | .ok (initilizer, p2) =>
      match p_consume p2 .semicolon "Expect ';' after variable declaration" with
      | .error e => .error e
      | .ok (_, p3) =>
        match bytes_to_string name_token.lexeme with
        | some nm => .ok (.varDecl ⟨nm, name_token.line, -1⟩ initilizer, p3)
        | none =>
          .error (.internalPanic "called Result::unwrap() on an Err value")

/-- `Parser::print_stmt`. -/
def p_print_stmt (fuel : Nat) (p : PState) : Except PErr (Stmt × PState) :=
  match p_expression fuel p with
  | .error e => .error e
  | .ok (expr, p1) =>
    match p_consume p1 .semicolon "Expected ; after value." with
    | .error e => .error e
    | .ok (_, p2) => .ok (.print expr, p2)

/-- `Parser::expression_stmt`. -/
def p_expression_stmt (fuel : Nat) (p : PState) : Except PErr (Stmt × PState) :=
  match p_expression fuel p with
  | .error e => .error e
  | .ok (expr, p1) =>
    match p_consume p1 .semicolon "Expected ; after value." with
    | .error e => .error e
    | .ok (_, p2) => .ok (.expr expr, p2)

/-- `Parser::statement`. -/
def p_statement (fuel : Nat) (p : PState) : Except PErr (Stmt × PState) :=
  let m := p.match_one .kwPrint
  if m.1 then p_print_stmt fuel m.2 else p_expression_stmt fuel m.2

/-- `Parser::declaration`. -/
def p_declaration (fuel : Nat) (p : PState) : Except PErr (Stmt × PState) :=
  let m := p.match_one .kwVar
  if m.1 then p_var_declaration fuel m.2 else p_statement fuel p

/-- The `while !self.is_at_end()` loop of `Parser::parse`. -/
def p_parse_loop : Nat → PState → Except PErr (List Stmt × PState)
  | 0, _ => .error .fuelOut
  | fuel + 1, p =>
    if p.is_at_end then .ok ([], p)
    else
      match p_declaration fuel p with
      | .error e => .error e
      | .ok (stmt, p1) =>
        match p_parse_loop fuel p1 with
        | .error e => .error e
        | .ok (stmts, p2) => .ok (stmt :: stmts, p2)

/-- `Parser::parse` on a token list (fuel amply covers the recursion depth of
the concrete runs below). -/
def p_parse (tokens : List Token) : Except PErr (List Stmt × PState) :=
  p_parse_loop (16 * (tokens.length + 1)) { tokens := tokens, current := 0 }

/-! ## Helper lemmas -/

/-- A string whose length is not 1 is not `"E"`. -/
theorem ne_E_of_length (s : String) (h : s.length ≠ 1) : s ≠ "E" := by
  intro he
  apply h
  rw [he]
  rfl

/-! ## Claim theorems -/

/-- The inner division `1 / 0` whose runtime error the statement-level
contract says should become the program's result. -/
def c1_division : Expr :=
  .binary (.literal (.number (.fin 1))) ⟨.slash, 1, -1⟩
    (.literal (.number (.fin 0)))

/-- The one-statement program `1 / 0 + 2;`. -/
def c1_program : List Stmt :=
  [.expr (.binary c1_division ⟨.plus, 1, -1⟩ (.literal (.number (.fin 2))))]

/-- C1: the claim says a runtime error arising inside an operand of a binary
expression aborts execution with that error as the program's result rather
than a crash.  The code contradicts this: `visit_binary` calls `.unwrap()` on
both operand results, so the `ZeroDivisionError` produced by the left operand
of `1 / 0 + 2;` panics the process (`crash`) instead of being returned. -/
theorem c1_operand_error_crashes_not_propagates :
    (evaluate_expr Environment.new c1_division).1 =
      .err (zero_div_msg 1 (-1)) ∧
    interpret Environment.new c1_program = (.crash, Environment.new, []) := by
  constructor <;> rfl

/-- C2 counterexample: the claim says `!` applied to any Value yields the
negation of its truthiness, so `!true` should evaluate to Boolean `false`;
the code instead raises the Boolean-operand type error, because the
`visit_unary` match only accepts `!` on Number operands. -/
theorem c2_counterexample_bang_on_boolean :
    evaluate_expr Environment.new (.unary ⟨.bang, 1, -1⟩ (.literal .true)) =
      (.err (unary_boolean_err ⟨.bang, 1, -1⟩), Environment.new) ∧
    (evaluate_expr Environment.new
        (.unary ⟨.bang, 1, -1⟩ (.literal .true))).1 ≠
      .ok (.boolean false) := by
  refine ⟨rfl, ?_⟩
  decide

/-- C2 amended: `-` on a Number negates it and `!` on a Number yields Boolean
`false` (the negation of its truthiness — every Number is truthy); but any
unary operator applied to a String, Boolean, or Nil operand (in particular
`!` on Booleans and Nil) is the corresponding operand type error.  The
truthiness rule is only ever consulted for Number operands. -/
theorem c2_amended_unary_semantics (env : Environment) (op : UnaryOp) :
    (∀ n : Fp, evaluate_expr env (.unary op (.literal (.number n))) =
      ((match op.op_type with
        | .minus => .ok (.number n.neg)
        | .bang => .ok (.boolean false)), env)) ∧
    (∀ s, evaluate_expr env (.unary op (.literal (.string s))) =
      (.err (unary_string_err op), env)) ∧
    (evaluate_expr env (.unary op (.literal .true)) =
      (.err (unary_boolean_err op), env)) ∧
    (evaluate_expr env (.unary op (.literal .false)) =
      (.err (unary_boolean_err op), env)) ∧
    (evaluate_expr env (.unary op (.literal .nil)) =
      (.err (unary_nil_err op), env)) := by
  obtain ⟨t, l, c⟩ := op
  cases t <;>
    simp [evaluate_expr, visit_literal, visit_unary_cases, is_truthy]

/-- C3 counterexample: `v == v` should be true for every non-NaN Number `v`,
but for `v = ∞` (not a NaN) the code computes `|∞ - ∞| = NaN < ε`, which is
false, so `∞ == ∞` evaluates to Boolean `false`. -/
theorem c3_counterexample_infinity_not_reflexive :
    Fp.is_nan .pinf = false ∧
    equals (.number .pinf) (.number .pinf) = false ∧
    evaluate_expr Environment.new
        (.binary (.literal (.number .pinf)) ⟨.equalEqual, 1, -1⟩
          (.literal (.number .pinf))) =
      (.ok (.boolean false), Environment.new) := by
  exact ⟨rfl, rfl, rfl⟩

/-- C3 amended: `v == v` holds except when `v` is a NaN **or infinite**
Number (for an infinity the difference `∞ - ∞` is NaN, failing the epsilon
test); finite Numbers compare equal exactly when their values differ by less
than machine epsilon; NaN and infinite Numbers compare unequal to every
Number, including themselves. -/
theorem c3_amended_structural_equality :
    (∀ v : Value, equals v v =
      (match v with
       | .number f => !f.is_nan && !f.is_infinite
       | _ => true)) ∧
    (∀ qa qb : ℚ, equals (.number (.fin qa)) (.number (.fin qb)) =
      decide (|qa - qb| < f64_epsilon)) ∧
    (∀ b : Fp,
      equals (.number .nan) (.number b) = false ∧
      equals (.number b) (.number .nan) = false ∧
      equals (.number .pinf) (.number b) = false ∧
      equals (.number b) (.number .pinf) = false ∧
      equals (.number .ninf) (.number b) = false ∧
      equals (.number b) (.number .ninf) = false) := by
  refine ⟨?_, ?_, ?_⟩
  · intro v
    cases v with
    | number f =>
      cases f with
      | fin q =>
        simp [equals, Fp.is_nan, Fp.is_infinite, Fp.sub, Fp.abs, Fp.lt,
          f64_epsilon]
      | nan => rfl
      | pinf => rfl
      | ninf => rfl
    | string s => simp [equals]
    | boolean b => simp [equals]
    | nil => rfl
  · intro qa qb
    simp [equals, Fp.is_nan, Fp.sub, Fp.abs, Fp.lt]
  · intro b
    cases b <;> simp [equals, Fp.is_nan, Fp.sub, Fp.abs, Fp.lt]

/-- C4: dividing two Number operands raises the `ZeroDivisionError` citing
the operator's location exactly when the divisor is the (finite) zero, and
otherwise yields the Number quotient; in the zero case the result is an
error, never an Infinity or NaN value. -/
theorem c4_zero_division_guard (env : Environment) (a b : Fp) (l : Nat)
    (c : Int) :
    evaluate_expr env
        (.binary (.literal (.number a)) ⟨.slash, l, c⟩
          (.literal (.number b))) =
      (if b = .fin 0 then .err (zero_div_msg l c)
       else .ok (.number (Fp.div a b)), env) := by
  cases b with
  | fin q =>
    by_cases hq : q = 0 <;>
      simp [evaluate_expr, visit_literal, visit_binary_cases, Fp.ieee_ne,
        Fp.ieee_eq, hq]
  | nan =>
    simp [evaluate_expr, visit_literal, visit_binary_cases, Fp.ieee_ne,
      Fp.ieee_eq]
  | pinf =>
    simp [evaluate_expr, visit_literal, visit_binary_cases, Fp.ieee_ne,
      Fp.ieee_eq]
  | ninf =>
    simp [evaluate_expr, visit_literal, visit_binary_cases, Fp.ieee_ne,
      Fp.ieee_eq]

/-- The expression kinds the evaluator's dispatch leaves to the catch-all
arm: variable reference, assignment, logical, call, get, set, this, super. -/
def is_unimplemented_expr : Expr → Bool
  | .assign _ _ => true
  | .call _ _ _ => true
  | .get _ _ => true
  | .logical _ _ _ => true
  | .set _ _ _ => true
  | .super _ _ => true
  | .this _ => true
  | .var _ => true
  | _ => false

/-- C6: every expression kind without defined semantics — including variable
reference and assignment, which are not routed to the Environment — falls
through to the generic error `"E"`, producing no Value, leaving the
Environment unchanged (both in expression position and as an expression
statement), and that error is distinct from every zero-division, unary/binary
type, and name error message the interpreter can produce. -/
theorem c6_unimplemented_generic_error (env : Environment) (e : Expr)
    (h : is_unimplemented_expr e = true) :
    evaluate_expr env e = (.err "E", env) ∧
    evaluate env (.expr e) = (.err "E", env, []) ∧
    (∀ l c, zero_div_msg l c ≠ "E") ∧
    (∀ op : UnaryOp, unary_string_err op ≠ "E" ∧
      unary_boolean_err op ≠ "E" ∧ unary_nil_err op ≠ "E") ∧
    (∀ (op : BinaryOp) (lt rt : LoxType), binary_type_err op lt rt ≠ "E") ∧
    (∀ sym : Symbol, not_declared_msg sym ≠ "E") ∧
    (∀ (sym : Symbol) (loc : SourceLocation),
      declared_not_defined_msg sym loc ≠ "E") := by
  have h1 : evaluate_expr env e = (.err "E", env) := by
    cases e <;> first | rfl | simp [is_unimplemented_expr] at h
  refine ⟨h1, ?_, ?_, ?_, ?_, ?_, ?_⟩
  · simp [evaluate, h1]
  · intro l c
    apply ne_E_of_length
    simp only [zero_div_msg, String.length_append,
      show ("ZeroDivisionError: division by zero at line " : String).length =
        44 from rfl]
    omega
  · intro op
    refine ⟨?_, ?_, ?_⟩ <;> apply ne_E_of_length
    · simp only [unary_string_err, String.length_append,
        show ("Invalid use of unary operator '" : String).length = 31 from rfl]
      omega
    · simp only [unary_boolean_err, String.length_append,
        show ("Invalid use of unary operator '" : String).length = 31 from rfl]
      omega
    · simp only [unary_nil_err, String.length_append,
        show ("Invalid use of unary operator " : String).length = 30 from rfl]
      omega
  · intro op lt rt
    apply ne_E_of_length
    simp only [binary_type_err, String.length_append,
      show ("Invalid operands for binary operator " : String).length =
        37 from rfl]
    omega
  · intro sym
    apply ne_E_of_length
    simp only [not_declared_msg, String.length_append,
      show ("Use undefined variable '" : String).length = 24 from rfl]
    omega
  · intro sym loc
    apply ne_E_of_length
    simp only [declared_not_defined_msg, String.length_append,
      show ("Use undefined variable '" : String).length = 24 from rfl]
    omega

/-- Witness for C6 at the concrete expression `this` and the empty
environment. -/
theorem c6_witness :
    evaluate_expr Environment.new (.this ⟨1, -1⟩) =
      (.err "E", Environment.new) :=
  (c6_unimplemented_generic_error Environment.new (.this ⟨1, -1⟩) rfl).1

/-- The token sequence the lexer produces for `1 + 2 * 3 - 4`. -/
def c7_tokens : List Token := (scan_tokens (str_bytes "1 + 2 * 3 - 4")).tokens

/-- The tree `(1 + (2 * 3)) - 4` the claim requires. -/
def c7_expected_tree : Expr :=
  .binary
    (.binary (.literal (.number (.fin 1))) ⟨.plus, 1, -1⟩
      (.binary (.literal (.number (.fin 2))) ⟨.star, 1, -1⟩
        (.literal (.number (.fin 3)))))
    ⟨.minus, 1, -1⟩
    (.literal (.number (.fin 4)))

/-- C7: parsing the token sequence of `1 + 2 * 3 - 4` yields exactly the tree
`(1 + (2 * 3)) - 4` — multiplication binds tighter, additive operators fold
left — consuming all seven expression tokens, and evaluating that tree yields
the Number 3 (in any environment, which is left unchanged). -/
theorem c7_precedence_and_evaluation :
    p_expression 100 ⟨c7_tokens, 0⟩ = .ok (c7_expected_tree, ⟨c7_tokens, 7⟩) ∧
    (∀ env : Environment,
      evaluate_expr env c7_expected_tree = (.ok (.number (.fin 3)), env)) := by
  constructor
  · rfl
  · intro env
    simp [c7_expected_tree, evaluate_expr, visit_binary_cases, visit_literal,
      Fp.mul, Fp.add, Fp.sub]
    norm_num

/-- C8: `lookup` realizes the three-way contract — the stored value when the
binding exists with a value, `declaredNotDefined` carrying the stored
declaration location when the binding exists without a value, `notDeclared`
when no binding exists — and `get` maps the first outcome to success and the
other two to errors built from the variable's name and reference location,
the declared-but-not-defined message additionally containing the declaration
location, and the two error messages are distinct. -/
theorem c8_lookup_get_trichotomy (env : Environment) (sym : Symbol) :
    (∀ (k : String) (v : Value) (loc : SourceLocation),
      env.values.find? (fun p => p.1 == sym.name) = some (k, (some v, loc)) →
        env.lookup sym = .ok v ∧ env.get sym = .ok v) ∧
    (∀ (k : String) (loc : SourceLocation),
      env.values.find? (fun p => p.1 == sym.name) = some (k, (none, loc)) →
        env.lookup sym = .declaredNotDefined ⟨loc.line, loc.col⟩ ∧
        env.get sym = .error (declared_not_defined_msg sym ⟨loc.line, loc.col⟩)) ∧
    (env.values.find? (fun p => p.1 == sym.name) = none →
      env.lookup sym = .notDeclared ∧
      env.get sym = .error (not_declared_msg sym)) ∧
    (∀ loc : SourceLocation, declared_not_defined_msg sym loc ≠
      not_declared_msg sym) := by
  refine ⟨?_, ?_, ?_, ?_⟩
  · intro k v loc hf
    constructor <;> simp [Environment.lookup, Environment.get, hf]
  · intro k loc hf
    constructor <;> simp [Environment.lookup, Environment.get, hf]
  · intro hf
    constructor <;> simp [Environment.lookup, Environment.get, hf]
  · intro loc he
    have hl := congrArg String.length he
    simp only [declared_not_defined_msg, not_declared_msg,
      String.length_append,
      show (".\nNote: " : String).length = 8 from rfl,
      show ("." : String).length = 1 from rfl,
      show (" was declared at line " : String).length = 22 from rfl,
      show (" but not defined." : String).length = 17 from rfl] at hl
    omega

/-- Witness for C8: the three lookup outcomes and both error messages at
concrete environments and symbols. -/
theorem c8_witness :
    Environment.lookup ⟨[("x", (none, ⟨3, 5⟩))]⟩ ⟨"x", 7, -1⟩ =
      .declaredNotDefined ⟨3, 5⟩ ∧
    Environment.get ⟨[]⟩ ⟨"y", 2, -1⟩ =
      .error (not_declared_msg ⟨"y", 2, -1⟩) ∧
    Environment.get ⟨[("z", (some .nil, ⟨1, 0⟩))]⟩ ⟨"z", 9, -1⟩ = .ok .nil := by
  refine ⟨?_, ?_, ?_⟩
  · exact ((c8_lookup_get_trichotomy ⟨[("x", (none, ⟨3, 5⟩))]⟩
      ⟨"x", 7, -1⟩).2.1 "x" ⟨3, 5⟩ rfl).1
  · exact ((c8_lookup_get_trichotomy ⟨[]⟩ ⟨"y", 2, -1⟩).2.2.1 rfl).2
  · exact ((c8_lookup_get_trichotomy ⟨[("z", (some .nil, ⟨1, 0⟩))]⟩
      ⟨"z", 9, -1⟩).1 "z" .nil ⟨1, 0⟩ rfl).2

/-- C5: the claim says the lexer emits identifier tokens carrying the
identifier text as their literal payload and the parser's `primary` turns
them into variable-reference nodes.  The code contradicts both halves: the
token scanned from `foo;` carries `literal = none` (`Scanner::identifier`
calls `add_token`, not `add_token_literal`), and parsing then hits the
parser's own `panic!` labelled an internal error instead of producing a
variable node. -/
theorem c5_identifier_payload_missing_parse_panics :
    (scan_tokens (str_bytes "foo;")).tokens.head? =
      some ⟨.identifier, str_bytes "foo", 1, none⟩ ∧
    p_parse (scan_tokens (str_bytes "foo;")).tokens =
      .error (.internalPanic
        "Internal parser error: literal not found while parsing identifier.") := by
  constructor <;> rfl

/-! ## Scanner safety invariants (for C9 and C10) -/

/-- Facts preserved by every scanner step: the source, the `oob` and `hung`
flags are untouched, the cursor moves monotonically and stays within the
source (or where it already was), and only non-`Eof` tokens are appended. -/
def scan_preserves (st r : ScanState) : Prop :=
  r.source = st.source ∧ r.oob = st.oob ∧ r.hung = st.hung ∧
  st.current ≤ r.current ∧
  r.current ≤ max st.current st.source.length ∧
  ∃ new, r.tokens = st.tokens ++ new ∧
    ∀ t ∈ new, t.t_type ≠ TokenType.eof

theorem scan_preserves_refl (st : ScanState) : scan_preserves st st :=
  ⟨rfl, rfl, rfl, Nat.le_refl _, Nat.le_max_left _ _,
   [], by simp, by simp⟩

theorem scan_preserves_trans {a b c : ScanState} (h1 : scan_preserves a b)
    (h2 : scan_preserves b c) : scan_preserves a c := by
  obtain ⟨s1, o1, g1, l1, u1, n1, t1, e1⟩ := h1
  obtain ⟨s2, o2, g2, l2, u2, n2, t2, e2⟩ := h2
  refine ⟨s2.trans s1, o2.trans o1, g2.trans g1, Nat.le_trans l1 l2, ?_,
    n1 ++ n2, ?_, ?_⟩
  · have : max b.current b.source.length ≤ max a.current a.source.length := by
      rw [s1]
      exact Nat.max_le.mpr ⟨Nat.le_trans u1 (Nat.le_refl _), Nat.le_max_right _ _⟩
    exact Nat.le_trans u2 this
  · rw [t2, t1, List.append_assoc]
  · intro t ht
    rcases List.mem_append.mp ht with h | h
    · exact e1 t h
    · exact e2 t h

theorem is_at_end_false_lt {st : ScanState} (h : st.is_at_end = false) :
    st.current < st.source.length := by
  simp [ScanState.is_at_end] at h
  omega

theorem is_at_end_true_le {st : ScanState} (h : st.is_at_end = true) :
    st.source.length ≤ st.current := by
  simp [ScanState.is_at_end] at h
  omega

/-- `peek` at or past the end is the NUL sentinel. -/
theorem peek_at_end (st : ScanState) (h : st.source.length ≤ st.current) :
    st.peek = 0 := by
  have : st.is_at_end = true := by simp [ScanState.is_at_end]; omega
  simp [ScanState.peek, this]

/-- `advance` from in range preserves the scan invariants. -/
theorem advance_preserves (st : ScanState) (h : st.current < st.source.length) :
    scan_preserves st (st.advance).2 := by
  refine ⟨rfl, ?_, rfl, Nat.le_succ _, ?_, [], by simp [ScanState.advance],
    by simp⟩
  · show (st.oob || decide (st.current ≥ st.source.length)) = st.oob
    have hd : decide (st.current ≥ st.source.length) = false := by
      simp
      omega
    rw [hd, Bool.or_false]
  · show st.current + 1 ≤ max st.current st.source.length
    exact Nat.le_trans h (Nat.le_max_right _ _)

/-- Updating the `line` field preserves the scan invariants. -/
theorem line_update_preserves (st : ScanState) (n : Nat) :
    scan_preserves st { st with line := n } :=
  ⟨rfl, rfl, rfl, Nat.le_refl _, Nat.le_max_left _ _, [], by simp, by simp⟩

theorem matches_preserves (st : ScanState) (c : Nat) :
    scan_preserves st (st.matches c).2 := by
  unfold ScanState.matches
  by_cases hat : st.is_at_end = true
  · rw [if_pos hat]
    exact scan_preserves_refl st
  · rw [if_neg hat]
    by_cases hc : st.source.getD st.current 0 ≠ c
    · rw [if_pos hc]
      exact scan_preserves_refl st
    · rw [if_neg hc]
      have hlt : st.current < st.source.length := by
        simp [ScanState.is_at_end] at hat
        omega
      refine ⟨rfl, rfl, rfl, Nat.le_succ _, ?_, [], by simp, by simp⟩
      show st.current + 1 ≤ max st.current st.source.length
      exact Nat.le_trans hlt (Nat.le_max_right _ _)

theorem add_token_literal_preserves (st : ScanState) (tt : TokenType)
    (lit : Option ScanLiteral) (htt : tt ≠ .eof) :
    scan_preserves st (st.add_token_literal tt lit) := by
  refine ⟨rfl, rfl, rfl, Nat.le_refl _, Nat.le_max_left _ _,
    [{ t_type := tt, literal := lit, line := st.line,
       lexeme := slice st.source st.start st.current }], rfl, ?_⟩
  intro t ht
  simp at ht
  subst ht
  exact htt

theorem add_token_preserves (st : ScanState) (tt : TokenType)
    (htt : tt ≠ .eof) : scan_preserves st (st.add_token tt) :=
  add_token_literal_preserves st tt none htt

theorem comment_loop_preserves :
    ∀ (fuel : Nat) (st : ScanState),
      st.source.length < st.current + fuel →
      scan_preserves st (comment_loop fuel st) := by
  intro fuel
  induction fuel with
  | zero =>
    intro st h
    have hg : ¬(st.peek ≠ 10 ∧ ¬st.is_at_end) := by
      have : st.is_at_end = true := by simp [ScanState.is_at_end]; omega
      simp [this]
    simp only [comment_loop, if_neg hg]
    exact scan_preserves_refl st
  | succ fuel ih =>
    intro st h
    by_cases hg : st.peek ≠ 10 ∧ ¬st.is_at_end
    · have hlt : st.current < st.source.length := by
        have h2 := hg.2
        simp [ScanState.is_at_end] at h2
        omega
      have step := advance_preserves st hlt
      have rest := ih (st.advance).2 (by
        show st.source.length < st.current + 1 + fuel
        omega)
      simp only [comment_loop, if_pos hg]
      exact scan_preserves_trans step rest
    · simp only [comment_loop, if_neg hg]
      exact scan_preserves_refl st

theorem digit_loop_preserves :
    ∀ (fuel : Nat) (st : ScanState),
      st.source.length < st.current + fuel →
      scan_preserves st (digit_loop fuel st) := by
  intro fuel
  induction fuel with
  | zero =>
    intro st h
    have hg : ¬(is_ascii_digit st.peek = true) := by
      rw [peek_at_end st (by omega)]
      decide
    simp only [digit_loop, if_neg hg]
    exact scan_preserves_refl st
  | succ fuel ih =>
    intro st h
    by_cases hg : is_ascii_digit st.peek = true
    · have hlt : st.current < st.source.length := by
        by_contra hc
        rw [peek_at_end st (by omega)] at hg
        simp [is_ascii_digit] at hg
      have step := advance_preserves st hlt
      have rest := ih (st.advance).2 (by
        show st.source.length < st.current + 1 + fuel
        omega)
      simp only [digit_loop, if_pos hg]
      exact scan_preserves_trans step rest
    · simp only [digit_loop, if_neg hg]
      exact scan_preserves_refl st

theorem ident_loop_preserves :
    ∀ (fuel : Nat) (st : ScanState),
      st.source.length < st.current + fuel →
      scan_preserves st (ident_loop fuel st) := by
  intro fuel
  induction fuel with
  | zero =>
    intro st h
    have hg : ¬(is_alpha_numeric st.peek = true) := by
      rw [peek_at_end st (by omega)]
      decide
    simp only [ident_loop, if_neg hg]
    exact scan_preserves_refl st
  | succ fuel ih =>
    intro st h
    by_cases hg : is_alpha_numeric st.peek = true
    · have hlt : st.current < st.source.length := by
        by_contra hc
        rw [peek_at_end st (by omega)] at hg
        simp [is_alpha_numeric, is_alpha, is_ascii_digit] at hg
      have step := advance_preserves st hlt
      have rest := ih (st.advance).2 (by
        show st.source.length < st.current + 1 + fuel
        omega)
      simp only [ident_loop, if_pos hg]
      exact scan_preserves_trans step rest
    · simp only [ident_loop, if_neg hg]
      exact scan_preserves_refl st

theorem string_loop_preserves :
    ∀ (fuel : Nat) (st : ScanState),
      st.source.length < st.current + fuel →
      scan_preserves st (string_loop fuel st) := by
  intro fuel
  induction fuel with
  | zero =>
    intro st h
    have hg : ¬(st.peek ≠ 34 ∧ ¬st.is_at_end) := by
      have : st.is_at_end = true := by simp [ScanState.is_at_end]; omega
      simp [this]
    simp only [string_loop, if_neg hg]
    exact scan_preserves_refl st
  | succ fuel ih =>
    intro st h
    by_cases hg : st.peek ≠ 34 ∧ ¬st.is_at_end
    · have hlt : st.current < st.source.length := by
        have h2 := hg.2
        simp [ScanState.is_at_end] at h2
        omega
      simp only [string_loop, if_pos hg]
      by_cases hp : st.peek = 10
      · have step : scan_preserves st
            (({ st with line := st.line + 1 } : ScanState).advance).2 :=
          scan_preserves_trans (line_update_preserves st (st.line + 1))
            (advance_preserves { st with line := st.line + 1 } hlt)
        have rest := ih (({ st with line := st.line + 1 } : ScanState).advance).2
          (by show st.source.length < st.current + 1 + fuel; omega)
        simp only [if_pos hp]
        exact scan_preserves_trans step rest
      · have step := advance_preserves st hlt
        have rest := ih (st.advance).2
          (by show st.source.length < st.current + 1 + fuel; omega)
        simp only [if_neg hp]
        exact scan_preserves_trans step rest
    · simp only [string_loop, if_neg hg]
      exact scan_preserves_refl st

theorem keyword_lookup_ne_eof (s : String) (k : TokenType)
    (h : keyword_lookup s = some k) : k ≠ TokenType.eof := by
  unfold keyword_lookup at h
  obtain ⟨p, hp, hk⟩ := Option.map_eq_some'.mp h
  have hmem := List.mem_of_find?_eq_some hp
  have hall : ∀ p ∈ keywords, p.2 ≠ TokenType.eof := by decide
  exact hk ▸ hall p hmem

theorem scan_string_preserves (st : ScanState)
    (hc : st.current ≤ st.source.length) :
    scan_preserves st (scan_string st) := by
  have hl := string_loop_preserves (st.source.length + 1) st (by omega)
  unfold scan_string
  set st1 := string_loop (st.source.length + 1) st with hst1
  by_cases hat : st1.is_at_end = true
  · rw [if_pos hat]
    exact scan_preserves_trans hl
      ⟨rfl, rfl, rfl, Nat.le_refl _, Nat.le_max_left _ _, [], by simp, by simp⟩
  · rw [if_neg hat]
    have hlt : st1.current < st1.source.length :=
      is_at_end_false_lt (Bool.eq_false_iff.mpr hat)
    have hadv := advance_preserves st1 hlt
    show scan_preserves st
      (match bytes_to_string
          (slice (st1.advance).2.source ((st1.advance).2.start + 1)
            ((st1.advance).2.current - 1)) with
       | none => { (st1.advance).2 with panicked := true }
       | some s =>
          (st1.advance).2.add_token_literal .string (some (.string s)))
    split
    · exact scan_preserves_trans hl (scan_preserves_trans hadv
        ⟨rfl, rfl, rfl, Nat.le_refl _, Nat.le_max_left _ _, [], by simp,
          by simp⟩)
    · exact scan_preserves_trans hl (scan_preserves_trans hadv
        (add_token_literal_preserves _ .string _ (by decide)))

theorem scan_number_preserves (st : ScanState)
    (hc : st.current ≤ st.source.length) :
    scan_preserves st (scan_number st) := by
  have h1 := digit_loop_preserves (st.source.length + 1) st (by omega)
  unfold scan_number
  set st1 := digit_loop (st.source.length + 1) st with hst1
  by_cases hcond : st1.peek = 46 ∧ is_ascii_digit st1.peek_next = true
  · have hlt : st1.current < st1.source.length := by
      by_contra hcc
      rw [peek_at_end st1 (by omega)] at hcond
      exact absurd hcond.1 (by decide)
    have hadv := advance_preserves st1 hlt
    have h2 := digit_loop_preserves ((st1.advance).2.source.length + 1)
      (st1.advance).2 (Nat.lt_succ_of_le (Nat.le_add_left _ _))
    simp only [hcond, and_self, if_true]
    exact scan_preserves_trans h1 (scan_preserves_trans hadv
      (scan_preserves_trans h2
        (add_token_literal_preserves _ .number _ (by decide))))
  · simp only [hcond, if_false]
    exact scan_preserves_trans h1
      (add_token_literal_preserves _ .number _ (by decide))

theorem scan_identifier_preserves (st : ScanState)
    (hc : st.current ≤ st.source.length) :
    scan_preserves st (scan_identifier st) := by
  have h1 := ident_loop_preserves (st.source.length + 1) st (by omega)
  unfold scan_identifier
  set st1 := ident_loop (st.source.length + 1) st with hst1
  show scan_preserves st
    (match bytes_to_string (slice st1.source st1.start st1.current) with
     | none => { st1 with panicked := true }
     | some literal =>
        st1.add_token
          (match keyword_lookup literal with
           | some k => k
           | none => TokenType.identifier))
  split
  · exact scan_preserves_trans h1
      ⟨rfl, rfl, rfl, Nat.le_refl _, Nat.le_max_left _ _, [], by simp, by simp⟩
  · rename_i lit hdec
    split
    · rename_i k hkw
      exact scan_preserves_trans h1
        (add_token_preserves _ _ (keyword_lookup_ne_eof lit k hkw))
    · exact scan_preserves_trans h1 (add_token_preserves _ _ (by decide))

theorem scan_token_c_preserves (c : Nat) (st : ScanState)
    (hc : st.current ≤ st.source.length) :
    scan_preserves st (scan_token_c c st) := by
  unfold scan_token_c
  by_cases h1 : c = 40
  · rw [if_pos h1]
    exact add_token_preserves _ _ (by decide)
  · rw [if_neg h1]
    by_cases h2 : c = 41
    · rw [if_pos h2]
      exact add_token_preserves _ _ (by decide)
    · rw [if_neg h2]
      by_cases h3 : c = 123
      · rw [if_pos h3]
        exact add_token_preserves _ _ (by decide)
      · rw [if_neg h3]
        by_cases h4 : c = 125
        · rw [if_pos h4]
          exact add_token_preserves _ _ (by decide)
        · rw [if_neg h4]
          by_cases h5 : c = 44
          · rw [if_pos h5]
            exact add_token_preserves _ _ (by decide)
          · rw [if_neg h5]
            by_cases h6 : c = 46
            · rw [if_pos h6]
              exact add_token_preserves _ _ (by decide)
            · rw [if_neg h6]
              by_cases h7 : c = 45
              · rw [if_pos h7]
                exact add_token_preserves _ _ (by decide)
              · rw [if_neg h7]
                by_cases h8 : c = 43
                · rw [if_pos h8]
                  exact add_token_preserves _ _ (by decide)
                · rw [if_neg h8]
                  by_cases h9 : c = 42
                  · rw [if_pos h9]
                    exact add_token_preserves _ _ (by decide)
                  · rw [if_neg h9]
                    by_cases h10 : c = 59
                    · rw [if_pos h10]
                      exact add_token_preserves _ _ (by decide)
                    · rw [if_neg h10]
                      by_cases h11 : c = 33
                      · rw [if_pos h11]
                        exact scan_preserves_trans (matches_preserves _ _)
                          (add_token_preserves _ _ (by cases (st.matches 61).1 <;> decide))
                      · rw [if_neg h11]
                        by_cases h12 : c = 32 ∨ c = 13 ∨ c = 9
                        · rw [if_pos h12]
                          exact scan_preserves_refl st
                        · rw [if_neg h12]
                          by_cases h13 : c = 10
                          · rw [if_pos h13]
                            exact ⟨rfl, rfl, rfl, Nat.le_refl _, Nat.le_max_left _ _, [],
                                by simp, by simp⟩
                          · rw [if_neg h13]
                            by_cases h14 : c = 34
                            · rw [if_pos h14]
                              exact scan_string_preserves st hc
                            · rw [if_neg h14]
                              by_cases h15 : c = 61
                              · rw [if_pos h15]
                                exact scan_preserves_trans (matches_preserves _ _)
                                  (add_token_preserves _ _ (by cases (st.matches 61).1 <;> decide))
                              · rw [if_neg h15]
                                by_cases h16 : c = 60
                                · rw [if_pos h16]
                                  exact scan_preserves_trans (matches_preserves _ _)
                                    (add_token_preserves _ _ (by cases (st.matches 61).1 <;> decide))
                                · rw [if_neg h16]
                                  by_cases h17 : c = 62
                                  · rw [if_pos h17]
                                    exact scan_preserves_trans (matches_preserves _ _)
                                      (add_token_preserves _ _ (by cases (st.matches 61).1 <;> decide))
                                  · rw [if_neg h17]
                                    by_cases h18 : c = 47
                                    · rw [if_pos h18]
                                      by_cases hm : ((st.matches 47).1 = true)
                                      · rw [if_pos hm]
                                        exact scan_preserves_trans (matches_preserves _ _)
                                          (comment_loop_preserves _ _
                                            (Nat.lt_succ_of_le (Nat.le_add_left _ _)))
                                      · rw [if_neg hm]
                                        exact scan_preserves_trans (matches_preserves _ _)
                                          (add_token_preserves _ _ (by decide))
                                    · rw [if_neg h18]
                                      by_cases h19 : is_ascii_digit c = true
                                      · rw [if_pos h19]
                                        exact scan_number_preserves st hc
                                      · rw [if_neg h19]
                                        by_cases h20 : is_alpha c = true
                                        · rw [if_pos h20]
                                          exact scan_identifier_preserves st hc
                                        · rw [if_neg h20]
                                          exact ⟨rfl, rfl, rfl, Nat.le_refl _, Nat.le_max_left _ _, [],
                                              by simp, by simp⟩

theorem scan_token_preserves (st : ScanState)
    (hlt : st.current < st.source.length) :
    scan_preserves st (scan_token st) ∧
    st.current < (scan_token st).current := by
  have hbody : scan_preserves (st.advance).2 (scan_token st) :=
    scan_token_c_preserves (st.advance).1 (st.advance).2
      (show st.current + 1 ≤ st.source.length from hlt)
  refine ⟨scan_preserves_trans (advance_preserves st hlt) hbody, ?_⟩
  have h1 : st.current + 1 ≤ (scan_token st).current := hbody.2.2.2.1
  omega

theorem scan_loop_preserves :
    ∀ (fuel : Nat) (st : ScanState),
      st.source.length < st.current + fuel →
      scan_preserves st (scan_loop fuel st) := by
  intro fuel
  induction fuel with
  | zero =>
    intro st h
    have hat : st.is_at_end = true := by
      simp [ScanState.is_at_end]
      omega
    simp only [scan_loop, if_pos hat]
    exact scan_preserves_refl st
  | succ fuel ih =>
    intro st h
    by_cases hat : st.is_at_end = true
    · simp only [scan_loop, if_pos hat]
      exact scan_preserves_refl st
    · have hlt : st.current < st.source.length :=
        is_at_end_false_lt (Bool.eq_false_iff.mpr hat)
      have hstart : scan_preserves st { st with start := st.current } :=
        ⟨rfl, rfl, rfl, Nat.le_refl _, Nat.le_max_left _ _, [], by simp,
          by simp⟩
      have htok := scan_token_preserves { st with start := st.current } hlt
      have hpre : scan_preserves st
          (scan_token { st with start := st.current }) :=
        scan_preserves_trans hstart htok.1
      simp only [scan_loop, if_neg hat]
      by_cases hp : (scan_token { st with start := st.current }).panicked = true
      · rw [if_pos hp]
        exact hpre
      · rw [if_neg hp]
        have hsrc : (scan_token { st with start := st.current }).source =
            st.source := hpre.1
        have hcur : st.current <
            (scan_token { st with start := st.current }).current := htok.2
        have hrec := ih (scan_token { st with start := st.current }) (by
          rw [hsrc]
          omega)
        exact scan_preserves_trans hpre hrec

/-- Combined behaviour of `scan_tokens`: the `oob` and `hung` instrumentation
flags stay clear on every input, and whenever the scan does not panic the
token list is a list of non-`Eof` tokens followed by exactly one `Eof`. -/
theorem scan_tokens_spec (src : List Nat) :
    (scan_tokens src).oob = false ∧ (scan_tokens src).hung = false ∧
    ((scan_tokens src).panicked = false →
      ∃ (ln : Nat) (new : List Token),
        (scan_tokens src).tokens =
          new ++ [{ t_type := .eof, lexeme := [], line := ln,
                    literal := none }] ∧
        ∀ t ∈ new, t.t_type ≠ TokenType.eof) := by
  have hloop := scan_loop_preserves (src.length + 1)
    { source := src, tokens := [], start := 0, current := 0, line := 1,
      col := -1, error := none, oob := false, panicked := false,
      hung := false } (show src.length < 0 + (src.length + 1) by omega)
  obtain ⟨hsrc, hoob, hhung, _, _, new, htok, hne⟩ := hloop
  unfold scan_tokens
  set r := scan_loop (src.length + 1)
    { source := src, tokens := [], start := 0, current := 0, line := 1,
      col := -1, error := none, oob := false, panicked := false,
      hung := false } with hr
  by_cases hp : r.panicked = true
  · rw [if_pos (Or.inl hp)]
    refine ⟨hoob, hhung, ?_⟩
    intro hc
    rw [hc] at hp
    exact absurd hp (by decide)
  · have hcond : ¬(r.panicked ∨ r.hung) := by
      rw [hhung]
      simp [hp]
    rw [if_neg hcond]
    refine ⟨hoob, hhung, ?_⟩
    intro _
    refine ⟨r.line, new, ?_, hne⟩
    show r.tokens ++ _ = new ++ _
    rw [htok]
    simp

/-- C9 counterexample: the claim says every input yields a token sequence
ending in exactly one end-of-input token, but for the two-byte input `é`
(UTF-8 `C3 A9`) the scanner consumes only the first byte as an identifier —
the byte cast to a char is alphabetic, the second is not — and
`String::from_utf8` on the one-byte slice fails, so the `.unwrap()` panics
before any `Eof` token is pushed: no token sequence is produced at all. -/
theorem c9_counterexample_utf8_panic :
    (scan_tokens [195, 169]).panicked = true ∧
    (scan_tokens [195, 169]).tokens = [] := by
  constructor <;> rfl

/-- C9 amended: for every input on which the scan completes without the
internal UTF-8 decode panic in `Scanner::identifier`/`Scanner::string` (in
particular, every ASCII input), the token sequence produced by `scan_tokens`
ends with an end-of-input token, and that token kind occurs exactly once, as
the final element. -/
theorem c9_amended_eof_sentinel (src : List Nat)
    (h : (scan_tokens src).panicked = false) :
    (scan_tokens src).tokens.countP (fun t => t.t_type == TokenType.eof) = 1 ∧
    ((scan_tokens src).tokens.getLast?).map Token.t_type =
      some TokenType.eof := by
  obtain ⟨ln, new, htk, hne⟩ := (scan_tokens_spec src).2.2 h
  constructor
  · rw [htk, List.countP_append]
    have h0 : new.countP (fun t => t.t_type == TokenType.eof) = 0 := by
      rw [List.countP_eq_zero]
      intro t ht
      simpa using hne t ht
    rw [h0]
    rfl
  · rw [htk, List.getLast?_concat]
    rfl

/-- Witness for C9 (amended) at the concrete input `1+2;`. -/
theorem c9_witness :
    (scan_tokens (str_bytes "1+2;")).tokens.countP
      (fun t => t.t_type == TokenType.eof) = 1 ∧
    ((scan_tokens (str_bytes "1+2;")).tokens.getLast?).map Token.t_type =
      some TokenType.eof :=
  c9_amended_eof_sentinel (str_bytes "1+2;") rfl

/-- C10: the scan is total and in bounds on every input — the `hung` flag
(recording loop-fuel exhaustion, i.e. non-termination of a scanner loop) and
the `oob` flag (recording an `advance` invoked with the cursor at or past the
end of the source, the only unguarded buffer read) are both clear for every
input, and `peek`/`peek_next` return the NUL sentinel instead of reading at
or past the end. -/
theorem c10_scan_totality_and_bounds :
    (∀ src : List Nat,
      (scan_tokens src).oob = false ∧ (scan_tokens src).hung = false) ∧
    (∀ st : ScanState, st.source.length ≤ st.current → st.peek = 0) ∧
    (∀ st : ScanState, st.source.length ≤ st.current + 1 →
      st.peek_next = 0) := by
  refine ⟨fun src => ⟨(scan_tokens_spec src).1, (scan_tokens_spec src).2.1⟩,
    peek_at_end, ?_⟩
  intro st h
  unfold ScanState.peek_next
  rw [if_pos (show st.current + 1 ≥ st.source.length by omega)]

/-- Witness for C10 at concrete inputs and states. -/
theorem c10_witness :
    (scan_tokens (str_bytes "var x = 1;")).oob = false ∧
    ScanState.peek ⟨[], [], 0, 0, 1, -1, none, false, false, false⟩ = 0 ∧
    ScanState.peek_next ⟨[7], [], 0, 0, 1, -1, none, false, false, false⟩ =
      0 :=
  ⟨(c10_scan_totality_and_bounds.1 (str_bytes "var x = 1;")).1,
   c10_scan_totality_and_bounds.2.1 _ (by decide),
   c10_scan_totality_and_bounds.2.2 _ (by decide)⟩

end Craft
